import Mathlib

/-!
Shallow embedding of the predicate / predicate-builder / specification
patterns of the `gopatterns` repository.

Sources embedded:
- the generic predicate core (`Predicate[T]`, `Filter`, `Any`, `All`, `None`,
  `Find`, `Count`, combinators `And`/`Or`/`Not`);
- the process predicate builder (`ProcessPredicateBuilder` with `With*`,
  `UseAND`, `UseOR`, `Build`) together with the atomic `By*` predicate
  constructors;
- the specification pattern (`ProcessSpecification` with `IsSatisfiedBy`,
  `And`, `Or`, `Not`, where `notSpecification.Not` unwraps the double
  negation).

Go slices become `List`, `int`/`int64` become `Int`, `float64` becomes
`Float` (no claim touches a float field), `string` becomes `String`.
The Go code is purely functional except for the builder, whose mutable
pointer-held state is modelled by explicit state passing: builder methods
take and return a `ProcessPredicateBuilder` value, and a built predicate
whose Go closure captured the builder pointer is invoked against the
builder state current at invocation time (see `BuiltPredicate.invoke`).
-/

namespace GoPatterns

/-- `Predicate[T any] func(T) bool`: a generic boolean test on `T`. -/
abbrev Predicate (T : Type) := T → Bool

/-- `Filter` applies a predicate to filter a slice, appending each item
for which the predicate holds to a fresh result slice, in order. -/
def Filter {T : Type} (items : List T) (predicate : Predicate T) : List T :=
  match items with
  | [] => []
  | item :: rest =>
      if predicate item then item :: Filter rest predicate
      else Filter rest predicate

/-- `Any` returns true if at least one element satisfies the predicate
(the Go loop returns `true` on the first hit, else `false`). -/
def Any {T : Type} (items : List T) (predicate : Predicate T) : Bool :=
  match items with
  | [] => false
  | item :: rest => if predicate item then true else Any rest predicate

/-- `All` returns true if all elements satisfy the predicate
(the Go loop returns `false` on the first failure, else `true`). -/
def All {T : Type} (items : List T) (predicate : Predicate T) : Bool :=
  match items with
  | [] => true
  | item :: rest => if !(predicate item) then false else All rest predicate

/-- `None` returns true if no elements satisfy the predicate:
`return !Any(items, predicate)`. -/
def None {T : Type} (items : List T) (predicate : Predicate T) : Bool :=
  !(Any items predicate)

/-- `Find` returns the first element that satisfies the predicate together
with `true`; with no match it returns the zero value (`var zero T`,
modelled by `default`) and `false`. Absence is a flag, never an error. -/
def Find {T : Type} [Inhabited T] (items : List T) (predicate : Predicate T) :
    T × Bool :=
  match items with
  | [] => (default, false)
  | item :: rest => if predicate item then (item, true) else Find rest predicate

/-- `Count` returns the number of elements that satisfy the predicate:
`count := 0`, then the loop increments `count` on each hit. Go's `int`
is modelled as `Int`. -/
def Count {T : Type} (items : List T) (predicate : Predicate T) : Int :=
  items.foldl (fun count item => if predicate item then count + 1 else count) 0

/-- `And` combines two predicates with logical AND:
`return p1(item) && p2(item)` (a new closure; the operands are untouched). -/
def And {T : Type} (p1 p2 : Predicate T) : Predicate T :=
  fun item => p1 item && p2 item

/-- `Or` combines two predicates with logical OR:
`return p1(item) || p2(item)`. -/
def Or {T : Type} (p1 p2 : Predicate T) : Predicate T :=
  fun item => p1 item || p2 item

/-- `Not` negates a predicate: `return !p(item)`. -/
def Not {T : Type} (p : Predicate T) : Predicate T :=
  fun item => !(p item)

/-! The process domain of the predicate-builder file. -/

/-- `Process` represents a system process. -/
structure Process where
  ID : Int
  Title : String
  Status : String
  Priority : Int
  Owner : String
  CPUUsage : Float
  Memory : Int

/-- `ProcessPredicate func(*Process) bool`. -/
abbrev ProcessPredicate := Process → Bool

/-- `ByTitle`: `return p.Title == title`. -/
def ByTitle (title : String) : ProcessPredicate :=
  fun p => p.Title == title

/-- `ByID`: `return p.ID == id`. -/
def ByID (id : Int) : ProcessPredicate :=
  fun p => p.ID == id

/-- `ByStatus`: `return p.Status == status`. -/
def ByStatus (status : String) : ProcessPredicate :=
  fun p => p.Status == status

/-- `ByMinPriority`: `return p.Priority >= minPriority`. -/
def ByMinPriority (minPriority : Int) : ProcessPredicate :=
  fun p => minPriority ≤ p.Priority

/-- `ByOwner`: `return p.Owner == owner`. -/
def ByOwner (owner : String) : ProcessPredicate :=
  fun p => p.Owner == owner

/-- `ByMinMemory`: `return p.Memory >= minMemory`. -/
def ByMinMemory (minMemory : Int) : ProcessPredicate :=
  fun p => minMemory ≤ p.Memory

/-- `ProcessPredicateBuilder` holds the accumulated predicates and the
combinator mode string (`"AND"` or `"OR"`). -/
structure ProcessPredicateBuilder where
  predicates : List ProcessPredicate
  combineOp : String

/-- `NewProcessPredicateBuilder`: empty predicate list, mode `"AND"`. -/
def NewProcessPredicateBuilder : ProcessPredicateBuilder :=
  { predicates := [], combineOp := "AND" }

/-- `WithTitle` appends `ByTitle title` to the builder's predicate list. -/
def ProcessPredicateBuilder.WithTitle (b : ProcessPredicateBuilder)
    (title : String) : ProcessPredicateBuilder :=
  { b with predicates := b.predicates ++ [ByTitle title] }

/-- `WithID` appends `ByID id`. -/
def ProcessPredicateBuilder.WithID (b : ProcessPredicateBuilder)
    (id : Int) : ProcessPredicateBuilder :=
  { b with predicates := b.predicates ++ [ByID id] }

/-- `WithStatus` appends `ByStatus status`. -/
def ProcessPredicateBuilder.WithStatus (b : ProcessPredicateBuilder)
    (status : String) : ProcessPredicateBuilder :=
  { b with predicates := b.predicates ++ [ByStatus status] }

/-- `WithMinPriority` appends `ByMinPriority priority`. -/
def ProcessPredicateBuilder.WithMinPriority (b : ProcessPredicateBuilder)
    (priority : Int) : ProcessPredicateBuilder :=
  { b with predicates := b.predicates ++ [ByMinPriority priority] }

/-- `WithOwner` appends `ByOwner owner`. -/
def ProcessPredicateBuilder.WithOwner (b : ProcessPredicateBuilder)
    (owner : String) : ProcessPredicateBuilder :=
  { b with predicates := b.predicates ++ [ByOwner owner] }

/-- `WithMinMemory` appends `ByMinMemory minMemory`. -/
def ProcessPredicateBuilder.WithMinMemory (b : ProcessPredicateBuilder)
    (minMemory : Int) : ProcessPredicateBuilder :=
  { b with predicates := b.predicates ++ [ByMinMemory minMemory] }

/-- `UseAND` sets the combinator to AND (the default). -/
def ProcessPredicateBuilder.UseAND (b : ProcessPredicateBuilder) :
    ProcessPredicateBuilder :=
  { b with combineOp := "AND" }

/-- `UseOR` sets the combinator to OR. -/
def ProcessPredicateBuilder.UseOR (b : ProcessPredicateBuilder) :
    ProcessPredicateBuilder :=
  { b with combineOp := "OR" }

/-- The value returned by `Build`. The zero-predicate case is a constant
closure, the one-predicate case is the stored predicate value itself, and
the two-or-more case is a closure over the builder pointer whose AND/OR
choice was fixed at build time but whose predicate list is read from the
builder at each invocation. -/
inductive BuiltPredicate where
  | alwaysTrue
  | single (p : ProcessPredicate)
  | andCombined
  | orCombined

/-- The OR loop of the built closure: `for _, pred := range b.predicates
{ if pred(p) { return true } }; return false`. -/
def orLoop (preds : List ProcessPredicate) (p : Process) : Bool :=
  match preds with
  | [] => false
  | pred :: rest => if pred p then true else orLoop rest p

/-- The AND loop of the built closure: `for _, pred := range b.predicates
{ if !pred(p) { return false } }; return true`. -/
def andLoop (preds : List ProcessPredicate) (p : Process) : Bool :=
  match preds with
  | [] => true
  | pred :: rest => if !(pred p) then false else andLoop rest p

/-- `Build` creates the final predicate: length 0 gives the constant-true
closure, length 1 gives `b.predicates[0]` itself, otherwise the OR closure
when `b.combineOp == "OR"` and the AND closure by default. -/
def ProcessPredicateBuilder.Build (b : ProcessPredicateBuilder) :
    BuiltPredicate :=
  match b.predicates with
  | [] => .alwaysTrue
  | [p] => .single p
  | _ => if b.combineOp == "OR" then .orCombined else .andCombined

/-- Invoking a built predicate. The `andCombined`/`orCombined` closures
captured the builder pointer `b` in Go and range over `b.predicates` at
call time, so they take the builder state current at the invocation; the
other two cases ignore that state. -/
def BuiltPredicate.invoke (bp : BuiltPredicate)
    (b : ProcessPredicateBuilder) (p : Process) : Bool :=
  match bp with
  | .alwaysTrue => true
  | .single pred => pred p
  | .andCombined => andLoop b.predicates p
  | .orCombined => orLoop b.predicates p

/-- One call in a fluent builder chain: a `With*`-criterion call (carrying
the criterion's argument) or a mode call (`UseAND` / `UseOR`). -/
inductive BuilderOp where
  | withTitle (title : String)
  | withID (id : Int)
  | withStatus (status : String)
  | withMinPriority (priority : Int)
  | withOwner (owner : String)
  | withMinMemory (minMemory : Int)
  | useAND
  | useOR
deriving DecidableEq

/-- Whether a chain call is a `With*`-criterion call (as opposed to a
mode call). -/
def BuilderOp.isWithCall : BuilderOp → Bool
  | .useAND => false
  | .useOR => false
  | _ => true

/-- Running one chain call on the builder state. -/
def applyOp (b : ProcessPredicateBuilder) : BuilderOp →
    ProcessPredicateBuilder
  | .withTitle title => b.WithTitle title
  | .withID id => b.WithID id
  | .withStatus status => b.WithStatus status
  | .withMinPriority priority => b.WithMinPriority priority
  | .withOwner owner => b.WithOwner owner
  | .withMinMemory minMemory => b.WithMinMemory minMemory
  | .useAND => b.UseAND
  | .useOR => b.UseOR

/-- Running a whole fluent chain, left to right. -/
def applyOps (b : ProcessPredicateBuilder) (ops : List BuilderOp) :
    ProcessPredicateBuilder :=
  ops.foldl applyOp b

/-! The specification pattern: an interface with four implementations
(`baseSpecification`, `andSpecification`, `orSpecification`,
`notSpecification`), modelled as the closed expression tree the Go
constructors can produce. -/

/-- `ProcessSpecification`: a leaf holds a `ProcessPredicate`
(`baseSpecification`); the other nodes hold their operand
specification(s) (`andSpecification`, `orSpecification`,
`notSpecification`). -/
inductive ProcessSpecification where
  | base (predicate : ProcessPredicate)
  | and (left right : ProcessSpecification)
  | or (left right : ProcessSpecification)
  | not (spec : ProcessSpecification)

/-- `IsSatisfiedBy`: leaf runs its predicate; `andSpecification` is
`left.IsSatisfiedBy(p) && right.IsSatisfiedBy(p)`; `orSpecification` uses
`||`; `notSpecification` is `!s.spec.IsSatisfiedBy(p)`. -/
def ProcessSpecification.IsSatisfiedBy :
    ProcessSpecification → Process → Bool
  | .base predicate, p => predicate p
  | .and left right, p => left.IsSatisfiedBy p && right.IsSatisfiedBy p
  | .or left right, p => left.IsSatisfiedBy p || right.IsSatisfiedBy p
  | .not spec, p => !(spec.IsSatisfiedBy p)

/-- The `And` method: every implementation returns
`&andSpecification{s, other}`. -/
def ProcessSpecification.And (s other : ProcessSpecification) :
    ProcessSpecification :=
  .and s other

/-- The `Or` method: every implementation returns
`&orSpecification{s, other}`. -/
def ProcessSpecification.Or (s other : ProcessSpecification) :
    ProcessSpecification :=
  .or s other

/-- The `Not` method: `notSpecification.Not` returns `s.spec` (the
double-negation shortcut); every other implementation returns
`&notSpecification{s}`. -/
def ProcessSpecification.Not : ProcessSpecification → ProcessSpecification
  | .not spec => spec
  | s => .not s

/-- A concrete process (the first sample record of the demo data). -/
def sampleProcess : Process :=
  { ID := 1, Title := "Go", Status := "running", Priority := 5,
    Owner := "user1", CPUUsage := 25.5, Memory := 1024 }

/-- A concrete all-`With*` fluent chain, used to instantiate the
mode-placement theorem. -/
def sampleWithChain : List BuilderOp :=
  [BuilderOp.withTitle "Go", BuilderOp.withStatus "running"]

/-! Helper lemmas. -/

theorem Filter_eq_filter {T : Type} (items : List T) (p : Predicate T) :
    Filter items p = items.filter p := by
  induction items with
  | nil => rfl
  | cons item rest ih =>
      by_cases h : p item = true
      · simp [Filter, h, List.filter_cons, ih]
      · simp [Filter, h, List.filter_cons, ih]

theorem Count_foldl_acc {T : Type} (items : List T) (p : Predicate T) :
    ∀ acc : Int,
      items.foldl (fun count item => if p item then count + 1 else count) acc
        = acc + ((Filter items p).length : Int) := by
  induction items with
  | nil => intro acc; simp [Filter]
  | cons item rest ih =>
      intro acc
      by_cases h : p item = true
      · simp [Filter, h, List.foldl, ih]
        ring
      · simp [Filter, h, List.foldl, ih]

theorem applyOp_withCall_UseOR_comm (b : ProcessPredicateBuilder)
    (op : BuilderOp) (h : op.isWithCall = true) :
    applyOp (b.UseOR) op = (applyOp b op).UseOR := by
  cases op <;> simp [BuilderOp.isWithCall] at h <;> rfl

theorem applyOps_withCalls_UseOR_comm (ws : List BuilderOp)
    (h : ∀ op ∈ ws, op.isWithCall = true) (b : ProcessPredicateBuilder) :
    applyOps (b.UseOR) ws = (applyOps b ws).UseOR := by
  induction ws generalizing b with
  | nil => rfl
  | cons op rest ih =>
      have hop : op.isWithCall = true := h op (List.mem_cons_self op rest)
      have hrest : ∀ o ∈ rest, o.isWithCall = true :=
        fun o ho => h o (List.mem_cons_of_mem op ho)
      show applyOps (applyOp (b.UseOR) op) rest = _
      rw [applyOp_withCall_UseOR_comm b op hop]
      exact ih hrest (applyOp b op)

/-! The claims. -/

/-- C1: for a builder holding exactly the two predicates `p1`, `p2`, the
predicate `Build()` returns gives, in AND mode, the same verdict on every
input as the pairwise combinator `And(p1, p2)`, and in OR mode the same
verdict as `Or(p1, p2)`. -/
theorem build_two_predicates_matches_pairwise (p1 p2 : ProcessPredicate)
    (x : Process) :
    BuiltPredicate.invoke
        (ProcessPredicateBuilder.Build ⟨[p1, p2], "AND"⟩)
        ⟨[p1, p2], "AND"⟩ x = And p1 p2 x ∧
    BuiltPredicate.invoke
        (ProcessPredicateBuilder.Build ⟨[p1, p2], "OR"⟩)
        ⟨[p1, p2], "OR"⟩ x = Or p1 p2 x := by
  refine ⟨?_, ?_⟩
  · show andLoop [p1, p2] x = And p1 p2 x
    cases h1 : p1 x <;> cases h2 : p2 x <;> simp [andLoop, And, h1, h2]
  · show orLoop [p1, p2] x = Or p1 p2 x
    cases h1 : p1 x <;> cases h2 : p2 x <;> simp [orLoop, Or, h1, h2]

/-- C2: `Build()` on a builder with zero accumulated predicates returns a
predicate that is true on every input, whatever the mode string is, and
`Build()` with exactly one accumulated predicate returns a predicate
behaviorally identical to that predicate, whatever the mode string is. -/
theorem build_zero_true_one_identity (op : String) (p : ProcessPredicate)
    (x : Process) :
    BuiltPredicate.invoke (ProcessPredicateBuilder.Build ⟨[], op⟩)
        ⟨[], op⟩ x = true ∧
    BuiltPredicate.invoke (ProcessPredicateBuilder.Build ⟨[p], op⟩)
        ⟨[p], op⟩ x = p x :=
  ⟨rfl, rfl⟩

/-- C3 counterexample: building an OR-mode builder with zero accumulated
predicates and invoking the result on a concrete process yields `true`,
not `false` — the code treats the empty case identically in both modes. -/
theorem or_empty_build_not_false :
    ¬ (BuiltPredicate.invoke (ProcessPredicateBuilder.Build ⟨[], "OR"⟩)
        ⟨[], "OR"⟩ sampleProcess = false) := by
  decide

/-- C3 amended: a built OR-mode predicate over an empty predicate set
evaluates to `true` for every input (the zero-predicate always-true
default applies regardless of the mode). -/
theorem or_empty_build_always_true (x : Process) :
    BuiltPredicate.invoke (ProcessPredicateBuilder.Build ⟨[], "OR"⟩)
        ⟨[], "OR"⟩ x = true :=
  rfl

/-- C4: the combinator mode applies at build time to the full accumulated
set: running `UseOR` before a chain of `With*` calls leaves the builder in
exactly the state reached by running it after them, and the predicates
built from the two states give identical verdicts on every input. -/
theorem mode_applies_at_build_time (ws : List BuilderOp)
    (h : ∀ op ∈ ws, op.isWithCall = true) (x : Process) :
    applyOps (applyOp NewProcessPredicateBuilder .useOR) ws
      = applyOps NewProcessPredicateBuilder (ws ++ [BuilderOp.useOR]) ∧
    BuiltPredicate.invoke
        (ProcessPredicateBuilder.Build
          (applyOps (applyOp NewProcessPredicateBuilder .useOR) ws))
        (applyOps (applyOp NewProcessPredicateBuilder .useOR) ws) x
      = BuiltPredicate.invoke
        (ProcessPredicateBuilder.Build
          (applyOps NewProcessPredicateBuilder (ws ++ [BuilderOp.useOR])))
        (applyOps NewProcessPredicateBuilder (ws ++ [BuilderOp.useOR])) x := by
  have key : applyOps (applyOp NewProcessPredicateBuilder .useOR) ws
      = applyOps NewProcessPredicateBuilder (ws ++ [BuilderOp.useOR]) := by
    show applyOps (NewProcessPredicateBuilder.UseOR) ws = _
    rw [applyOps_withCalls_UseOR_comm ws h NewProcessPredicateBuilder]
    show _ = List.foldl applyOp NewProcessPredicateBuilder
      (ws ++ [BuilderOp.useOR])
    rw [List.foldl_append]
    rfl
  exact ⟨key, by rw [key]⟩

/-- C4 witness: the theorem instantiated at a concrete two-call `With*`
chain and a concrete process. -/
theorem mode_applies_at_build_time_witness :
    applyOps (applyOp NewProcessPredicateBuilder .useOR) sampleWithChain
      = applyOps NewProcessPredicateBuilder
          (sampleWithChain ++ [BuilderOp.useOR]) ∧
    BuiltPredicate.invoke
        (ProcessPredicateBuilder.Build
          (applyOps (applyOp NewProcessPredicateBuilder .useOR)
            sampleWithChain))
        (applyOps (applyOp NewProcessPredicateBuilder .useOR)
          sampleWithChain) sampleProcess
      = BuiltPredicate.invoke
        (ProcessPredicateBuilder.Build
          (applyOps NewProcessPredicateBuilder
            (sampleWithChain ++ [BuilderOp.useOR])))
        (applyOps NewProcessPredicateBuilder
          (sampleWithChain ++ [BuilderOp.useOR])) sampleProcess :=
  mode_applies_at_build_time sampleWithChain (by decide) sampleProcess

/-- C5: `Filter` returns exactly the items satisfying the predicate, as a
subsequence of the input preserving relative order (it agrees with the
canonical `List.filter`); the input list is untouched, the result being a
freshly built list. -/
theorem filter_exactly_matching_in_order {T : Type} (items : List T)
    (p : Predicate T) :
    Filter items p = items.filter p ∧
    (Filter items p).Sublist items ∧
    ∀ x, x ∈ Filter items p ↔ x ∈ items ∧ p x = true := by
  have h := Filter_eq_filter items p
  refine ⟨h, ?_, ?_⟩
  · rw [h]; exact List.filter_sublist items
  · intro x; rw [h]; exact List.mem_filter

/-- C6: `Count` is never negative and equals the length of the `Filter`
result. -/
theorem count_eq_filter_length {T : Type} (items : List T)
    (p : Predicate T) :
    0 ≤ Count items p ∧
    Count items p = ((Filter items p).length : Int) := by
  have h : Count items p = ((Filter items p).length : Int) := by
    show items.foldl _ 0 = _
    rw [Count_foldl_acc items p 0]
    simp
  exact ⟨by rw [h]; exact Int.ofNat_nonneg _, h⟩

/-- C7: `Find` returns the first item (in sequence order) satisfying the
predicate paired with `true` when one exists, and the zero value paired
with `false` otherwise — it agrees with the canonical first-match
`List.find?`, and absence is a boolean flag, never an error. -/
theorem find_first_match_with_flag {T : Type} [Inhabited T]
    (items : List T) (p : Predicate T) :
    Find items p = ((items.find? p).getD default, (items.find? p).isSome) := by
  induction items with
  | nil => rfl
  | cons item rest ih =>
      by_cases h : p item = true
      · simp [Find, List.find?_cons, h]
      · simp [Find, List.find?_cons, h, ih]

/-- C8: the combinators are pointwise boolean operations: `And p q x` is
`p x && q x`, `Or p q x` is `p x || q x`, and `Not p x` is `!p x`; each
returns a fresh closure and leaves its operand predicates untouched. -/
theorem combinators_pointwise {T : Type} (p q : Predicate T) (x : T) :
    And p q x = (p x && q x) ∧
    Or p q x = (p x || q x) ∧
    Not p x = !(p x) :=
  ⟨rfl, rfl, rfl⟩

/-- C9: double negation on a specification is behaviorally the identity:
`s.Not().Not().IsSatisfiedBy(x) == s.IsSatisfiedBy(x)` for every
specification tree `s` and every process `x`. -/
theorem specification_double_negation (s : ProcessSpecification)
    (x : Process) :
    ((s.Not).Not).IsSatisfiedBy x = s.IsSatisfiedBy x := by
  cases s with
  | base p => rfl
  | and l r => rfl
  | or l r => rfl
  | not t =>
      cases t <;>
        simp [ProcessSpecification.Not, ProcessSpecification.IsSatisfiedBy]

/-- C10: a built predicate over two or more accumulated predicates reads
the builder's predicate list at each invocation: on a concrete builder
with two predicates the built predicate answers `true` against the state
it was built from, but `false` once a later `WithTitle` has appended a
third predicate; whereas a build performed with exactly one accumulated
predicate returns the stored predicate itself, whose verdicts ignore the
builder state passed at invocation. -/
theorem built_predicate_reads_current_list :
    BuiltPredicate.invoke
        (ProcessPredicateBuilder.Build ⟨[ByTitle "Go", ByID 1], "AND"⟩)
        ⟨[ByTitle "Go", ByID 1], "AND"⟩ sampleProcess = true ∧
    BuiltPredicate.invoke
        (ProcessPredicateBuilder.Build ⟨[ByTitle "Go", ByID 1], "AND"⟩)
        ((⟨[ByTitle "Go", ByID 1], "AND"⟩ :
            ProcessPredicateBuilder).WithTitle "Python")
        sampleProcess = false ∧
    ∀ (p : ProcessPredicate) (op : String)
      (later : ProcessPredicateBuilder) (x : Process),
        ProcessPredicateBuilder.Build ⟨[p], op⟩ = .single p ∧
        BuiltPredicate.invoke (ProcessPredicateBuilder.Build ⟨[p], op⟩)
          later x = p x :=
  ⟨rfl, rfl, fun _ _ _ _ => ⟨rfl, rfl⟩⟩

end GoPatterns
